import Mathlib

/-!
Verification of the entity-simulation / combat-resolution core of the
repository: the Game State Store (damage / armor / heal algorithms), the
Weapon fire gate, the Hostile Entity state machine, the Spawner lifecycle
manager and the stateless collision queries.

Numbers held in game state (health, armor, coins, ammo, timers) are
modelled as exact rationals / integers: every arithmetic operation the
embedded code performs on them (`+`, `-`, `min`, `max`, comparisons) is
exact on the values the program uses.  Timestamps (`Date.now()`) are
modelled as an explicit integer parameter `now`.  Geometry
(`CollisionSystem`, spawn positions) is modelled over the reals.
-/

/-- Weapon identifiers.  The configuration (`WEAPONS` in the constants
module) is a closed two-element set. -/
inductive WeaponId
  | pistol
  | shotgun
deriving DecidableEq, Repr

/-- Events published on the event bus (`EVENTS` in the constants module).
Only the payload fields that the verified algorithms produce are kept;
`STATE_CHANGED`'s path/old/new payload is not inspected by any claim and
is omitted. -/
inductive Event
  | stateChanged
  | armorBroken
  | playerDied
  | playerDamaged (amount : ℚ) (remaining : ℚ)
  | weaponFired (weapon : WeaponId) (ammoLeft : ℤ)
  | weaponEmpty (weapon : WeaponId)
  | weaponSwitched (weapon : WeaponId)
  | enemyKilled
  | enemyHeadshot
deriving DecidableEq, Repr

/-- Recogniser for the `ARMOR_BROKEN` event, used to count publications. -/
def Event.isArmorBroken : Event → Bool
  | .armorBroken => true
  | _ => false

/-- Recogniser for the `PLAYER_DIED` event, used to count publications. -/
def Event.isPlayerDied : Event → Bool
  | .playerDied => true
  | _ => false

/-- Recogniser for the `WEAPON_EMPTY` event. -/
def Event.isWeaponEmpty : Event → Bool
  | .weaponEmpty _ => true
  | _ => false

/-- `state.player` of the Game State Store. -/
structure PlayerState where
  health : ℚ
  maxHealth : ℚ
  armor : ℚ
  maxArmor : ℚ
  coins : ℚ
  kills : ℕ
deriving DecidableEq, Repr

/-- Per-weapon ammo map (`weapons.ammo` / `weapons.maxAmmo`). -/
structure AmmoMap where
  pistol : ℤ
  shotgun : ℤ
deriving DecidableEq, Repr

/-- Look up a weapon's entry in an ammo map. -/
def AmmoMap.get (m : AmmoMap) : WeaponId → ℤ
  | .pistol => m.pistol
  | .shotgun => m.shotgun

/-- Overwrite a weapon's entry in an ammo map. -/
def AmmoMap.set (m : AmmoMap) : WeaponId → ℤ → AmmoMap
  | .pistol, v => { m with pistol := v }
  | .shotgun, v => { m with shotgun := v }

/-- `state.weapons` of the Game State Store. -/
structure WeaponsState where
  current : WeaponId
  owned : List WeaponId
  ammo : AmmoMap
  maxAmmo : AmmoMap
deriving DecidableEq, Repr

/-- The canonical game state (`initialState` shape in `GameState.js`). -/
structure GameState where
  isPlaying : Bool
  isPaused : Bool
  shopOpen : Bool
  isFirstPerson : Bool
  player : PlayerState
  weapons : WeaponsState
deriving DecidableEq, Repr

/-- The immutable initial template (`initialState` in `GameState.js`). -/
def initialState : GameState :=
  { isPlaying := false
    isPaused := false
    shopOpen := false
    isFirstPerson := false
    player :=
      { health := 100, maxHealth := 100, armor := 0, maxArmor := 0
        coins := 0, kills := 0 }
    weapons :=
      { current := .pistol
        owned := [.pistol]
        ammo := { pistol := 12, shotgun := 0 }
        maxAmmo := { pistol := 12, shotgun := 6 } } }

/-- The initial state with the armor field overwritten, as produced by a
shop armor purchase path; used for concrete test states. -/
def withArmor (a : ℚ) : GameState :=
  { initialState with player := { initialState.player with armor := a } }

namespace GameState

/-- `GameState.damage(amount)`.  Mirrors the source: armor absorbs first
(publishing `STATE_CHANGED` via `setState` and `ARMOR_BROKEN` when the
post-write armor is `≤ 0`), remaining damage hits health floored at 0
(publishing `STATE_CHANGED` and, when the new health is `≤ 0`,
`PLAYER_DIED`), and `PLAYER_DAMAGED` is always published last with the
resulting health.  Returns the new state and the event trace in
publication order. -/
def damage (s : GameState) (amount : ℚ) : GameState × List Event :=
  let armorStep :
      GameState × List Event × ℚ :=
    if s.player.armor > 0 then
      let armorDamage := min s.player.armor amount
      let s1 : GameState :=
        { s with player := { s.player with armor := s.player.armor - armorDamage } }
      let evs :=
        [Event.stateChanged] ++
          (if s1.player.armor ≤ 0 then [Event.armorBroken] else [])
      (s1, evs, amount - armorDamage)
    else
      (s, [], amount)
  let s1 := armorStep.1
  let remaining := armorStep.2.2
  let healthStep : GameState × List Event :=
    if remaining > 0 then
      let newHealth := max 0 (s1.player.health - remaining)
      let s2 : GameState :=
        { s1 with player := { s1.player with health := newHealth } }
      let evs :=
        [Event.stateChanged] ++
          (if newHealth ≤ 0 then [Event.playerDied] else [])
      (s2, evs)
    else
      (s1, [])
  (healthStep.1,
    armorStep.2.1 ++ healthStep.2 ++
      [Event.playerDamaged amount healthStep.1.player.health])

/-- `GameState.heal(amount)`: health becomes
`min(maxHealth, health + amount)`; the write publishes `STATE_CHANGED`. -/
def heal (s : GameState) (amount : ℚ) : GameState × List Event :=
  let newHealth := min s.player.maxHealth (s.player.health + amount)
  ({ s with player := { s.player with health := newHealth } },
    [Event.stateChanged])

/-- `GameState.useAmmo()`: decrements the current weapon's ammo and
publishes `WEAPON_FIRED` with the remaining count, or publishes
`WEAPON_EMPTY` and fails when the ammo is already 0.  Returns
success flag, new state and the store-emitted event trace. -/
def useAmmo (s : GameState) : Bool × GameState × List Event :=
  let weapon := s.weapons.current
  let currentAmmo := s.weapons.ammo.get weapon
  if currentAmmo > 0 then
    (true,
      { s with weapons :=
          { s.weapons with ammo := s.weapons.ammo.set weapon (currentAmmo - 1) } },
      [Event.stateChanged, Event.weaponFired weapon (currentAmmo - 1)])
  else
    (false, s, [Event.weaponEmpty weapon])

end GameState

/-! ## Weapon (`src/entities/Weapon.js`) -/

/-- Which object published an event: the `Weapon` instance itself (its
own `eventBus.emit` call) or the Game State Store (inside `useAmmo`). -/
inductive EventSource
  | weapon
  | store
deriving DecidableEq, Repr

/-- The `Weapon` entity.  The mesh, recoil animation and Three.js
resources are rendering-layer state and are not modelled.  JS
timestamps (`Date.now()`) are integer milliseconds. -/
structure Weapon where
  type : WeaponId
  lastFireTime : ℤ
  fireRate : ℤ
deriving DecidableEq, Repr

/-- `new Weapon(type)`: fire rate is 800 ms for the shotgun, 300 ms
otherwise; `lastFireTime` starts at 0. -/
def Weapon.new (type : WeaponId) : Weapon :=
  { type := type
    lastFireTime := 0
    fireRate := if type = .shotgun then 800 else 300 }

/-- `Weapon.canFire()`: true iff the weapon's ammo in the store is `> 0`
and at least `fireRate` ms elapsed since the last fire. -/
def Weapon.canFire (w : Weapon) (gs : GameState) (now : ℤ) : Bool :=
  decide (0 < gs.weapons.ammo.get w.type) &&
    decide (w.fireRate ≤ now - w.lastFireTime)

/-- `Weapon.fire()`.  On gate failure: if the ammo is `≤ 0` the weapon
itself emits `WEAPON_EMPTY` and returns false, otherwise it returns
false silently.  On success it records the fire timestamp and calls
`gameState.useAmmo()` (whose events are store-sourced).  Returns
(success, weapon, store state, source-tagged event trace). -/
def Weapon.fire (w : Weapon) (gs : GameState) (now : ℤ) :
    Bool × Weapon × GameState × List (EventSource × Event) :=
  if !(w.canFire gs now) then
    if gs.weapons.ammo.get w.type ≤ 0 then
      (false, w, gs, [(EventSource.weapon, Event.weaponEmpty w.type)])
    else
      (false, w, gs, [])
  else
    let w2 : Weapon := { w with lastFireTime := now }
    let result := gs.useAmmo
    (true, w2, result.2.1,
      result.2.2.map (fun e => (EventSource.store, e)))

/-- The initial store state with the pistol magazine emptied
(`weapons.ammo.pistol = 0`). -/
def emptyPistolState : GameState :=
  { initialState with weapons :=
      { initialState.weapons with ammo := { pistol := 0, shotgun := 0 } } }

/-! ## Hostile entity (`src/entities/Enemy.js`) -/

namespace ZOMBIE

/-- `ZOMBIE.HEALTH` from the constants module. -/
def HEALTH : ℚ := 100

/-- `ZOMBIE.DAMAGE` from the constants module. -/
def DAMAGE : ℚ := 10

/-- `ZOMBIE.SPAWN_INTERVAL` (ms) from the constants module. -/
def SPAWN_INTERVAL : ℚ := 3000

/-- `ZOMBIE.ATTACK_COOLDOWN` (ms) from the constants module. -/
def ATTACK_COOLDOWN : ℤ := 1000

/-- `ZOMBIE.BODY_DESPAWN_TIME` (ms) from the constants module. -/
def BODY_DESPAWN_TIME : ℤ := 5000

end ZOMBIE

/-- The hostile entity's simulation state: identity, health, binary life
state, death and last-attack timestamps, and whether the head collider
is still attached.  The Three.js meshes, the group's 3D position and
the walk/fall animations are rendering-layer state; of the methods
modelled here none reads or writes them except `update`'s live branch,
which only moves the mesh group and whose simulation-visible result is
only its Boolean removal signal.  The JS identity string
`enemy_<n>` is modelled by its counter `n`. -/
structure Enemy where
  id : ℕ
  health : ℚ
  isDead : Bool
  deathTime : ℤ
  lastAttackTime : ℤ
  hasHead : Bool
deriving DecidableEq, Repr

/-- `new Enemy(id)`: full health, alive, timestamps 0, head attached. -/
def Enemy.new (id : ℕ) : Enemy :=
  { id := id
    health := ZOMBIE.HEALTH
    isDead := false
    deathTime := 0
    lastAttackTime := 0
    hasHead := true }

/-- `Enemy.die(isHeadshot)`: marks the entity dead, records the death
timestamp, and permanently detaches the head on a headshot kill. -/
def Enemy.die (e : Enemy) (isHeadshot : Bool) (now : ℤ) : Enemy :=
  { e with
    isDead := true
    deathTime := now
    hasHead := e.hasHead && !isHeadshot }

/-- `Enemy.takeDamage(amount, isHeadshot)`: no-op returning "not killed"
on a dead entity; otherwise reduces health and, when it drops to `≤ 0`,
dies (returning "killed"). -/
def Enemy.takeDamage (e : Enemy) (amount : ℚ) (isHeadshot : Bool) (now : ℤ) :
    Bool × Enemy :=
  if e.isDead then (false, e)
  else
    let e1 : Enemy := { e with health := e.health - amount }
    if e1.health ≤ 0 then (true, e1.die isHeadshot now)
    else (false, e1)

/-- `Enemy.update(deltaTime, playerPosition)`: a dead entity signals
removal once `now − deathTime` exceeds the despawn delay; a live entity
moves its mesh toward the player (rendering-layer position only) and
never signals removal. -/
def Enemy.update (e : Enemy) (now : ℤ) : Bool :=
  if e.isDead then decide (ZOMBIE.BODY_DESPAWN_TIME < now - e.deathTime)
  else false

/-! ## Spawner (`SpawnerSystem`) -/

/-- The Spawner's state.  The Three.js `scene` handle and the cached
`playerPosition` are rendering-layer collaborators: the player position
feeds only the (real-valued) spawn-position and movement geometry, which
no lifecycle bookkeeping reads.  The `deadEnemies` array stores object
references into `enemies`; since every enemy is created with a fresh
value of the identity counter, reference identity is modelled by the
enemy id. -/
structure SpawnerState where
  enemies : List Enemy
  deadEnemies : List ℕ
  spawnTimer : ℚ
  enemyIdCounter : ℕ
  isActive : Bool
deriving DecidableEq, Repr

/-- The freshly constructed spawner (`new SpawnerSystem(scene)`). -/
def initialSpawner : SpawnerState :=
  { enemies := []
    deadEnemies := []
    spawnTimer := 0
    enemyIdCounter := 0
    isActive := false }

namespace SpawnerState

/-- `SpawnerSystem.start()`. -/
def start (st : SpawnerState) : SpawnerState :=
  { st with isActive := true }

/-- `SpawnerSystem.stop()`. -/
def stop (st : SpawnerState) : SpawnerState :=
  { st with isActive := false }

/-- `SpawnerSystem.spawnEnemy()`: appends a fresh enemy using (and then
incrementing) the identity counter.  The randomized spawn position is
passed to `enemy.init` (rendering-layer mesh placement, see
`SpawnerSystem.getSpawnPosition` for its geometry). -/
def spawnEnemy (st : SpawnerState) : SpawnerState :=
  { st with
    enemies := st.enemies ++ [Enemy.new st.enemyIdCounter]
    enemyIdCounter := st.enemyIdCounter + 1 }

/-- `SpawnerSystem.removeEnemy(index)`: removes the enemy at `index`
from the active set and, if present, its reference from the dead set
(one occurrence, via `indexOf`/`splice`).  An out-of-range index throws
in JS before any mutation, so the state is returned unchanged. -/
def removeEnemy (st : SpawnerState) (index : ℕ) : SpawnerState :=
  match st.enemies.get? index with
  | none => st
  | some e =>
    { st with
      enemies := st.enemies.eraseIdx index
      deadEnemies := st.deadEnemies.erase e.id }

/-- One iteration of the `updateEnemies` loop at index `i`: call
`enemy.update` (whose simulation-visible result is the removal signal);
remove the enemy if it signals, otherwise record it in the dead set if
it is dead and not already recorded. -/
def processEnemyAt (st : SpawnerState) (now : ℤ) (i : ℕ) : SpawnerState :=
  match st.enemies.get? i with
  | none => st
  | some e =>
    if e.update now then
      st.removeEnemy i
    else if e.isDead && !(st.deadEnemies.contains e.id) then
      { st with deadEnemies := st.deadEnemies ++ [e.id] }
    else st

/-- The `updateEnemies` loop, iterating indices `fuel − 1, …, 0`
(the source iterates in reverse index order so removal at the current
index never shifts the still-unvisited smaller indices). -/
def updateLoop (st : SpawnerState) (now : ℤ) : ℕ → SpawnerState
  | 0 => st
  | i + 1 => (st.processEnemyAt now i).updateLoop now i

/-- `SpawnerSystem.updateEnemies(deltaTime)`. -/
def updateEnemies (st : SpawnerState) (now : ℤ) : SpawnerState :=
  st.updateLoop now st.enemies.length

/-- One iteration of the `cleanupDeadEnemies` loop at dead-set index
`i`: if the referenced dead enemy's body has lain past the despawn
delay, look up its index in the active set (`indexOf`) and remove it
there (which also deletes it from the dead set). -/
def cleanupStepAt (st : SpawnerState) (now : ℤ) (i : ℕ) : SpawnerState :=
  match st.deadEnemies.get? i with
  | none => st
  | some id =>
    match st.enemies.find? (fun e => e.id == id) with
    | none => st
    | some e =>
      if ZOMBIE.BODY_DESPAWN_TIME < now - e.deathTime then
        match st.enemies.findIdx? (fun e2 => e2.id == id) with
        | none => st
        | some idx => st.removeEnemy idx
      else st

/-- The `cleanupDeadEnemies` loop, iterating dead-set indices in
reverse. -/
def cleanupLoop (st : SpawnerState) (now : ℤ) : ℕ → SpawnerState
  | 0 => st
  | i + 1 => (st.cleanupStepAt now i).cleanupLoop now i

/-- `SpawnerSystem.cleanupDeadEnemies()`. -/
def cleanupDeadEnemies (st : SpawnerState) (now : ℤ) : SpawnerState :=
  st.cleanupLoop now st.deadEnemies.length

/-- `SpawnerSystem.update(deltaTime)`: returns immediately when
inactive; otherwise accumulates the spawn timer (`deltaTime` seconds,
timer in ms), spawns one enemy and resets the timer when it reaches the
spawn interval, then advances all enemies and sweeps expired bodies. -/
def update (st : SpawnerState) (deltaTime : ℚ) (now : ℤ) : SpawnerState :=
  if !st.isActive then st
  else
    let st1 : SpawnerState := { st with spawnTimer := st.spawnTimer + deltaTime * 1000 }
    let st2 :=
      if ZOMBIE.SPAWN_INTERVAL ≤ st1.spawnTimer then
        ({ st1 with spawnTimer := 0 }).spawnEnemy
      else st1
    (st2.updateEnemies now).cleanupDeadEnemies now

/-- `SpawnerSystem.clear()`: removes all enemies immediately regardless
of life state. -/
def clear (st : SpawnerState) : SpawnerState :=
  { st with enemies := [], deadEnemies := [] }

/-- The hit-scan resolver's write into the spawner's entities
(`RaycastSystem` calling `enemy.takeDamage` on a stored enemy): the
enemy object at `index` is mutated in place. -/
def damageEnemy (st : SpawnerState) (index : ℕ) (amount : ℚ)
    (isHeadshot : Bool) (now : ℤ) : SpawnerState :=
  match st.enemies.get? index with
  | none => st
  | some e =>
    { st with enemies := st.enemies.set index (e.takeDamage amount isHeadshot now).2 }

end SpawnerState

/-- The operations that drive a `SpawnerSystem` between ticks. -/
inductive SpawnerOp
  | start
  | stop
  | update (deltaTime : ℚ) (now : ℤ)
  | spawnEnemy
  | removeEnemy (index : ℕ)
  | cleanupDeadEnemies (now : ℤ)
  | clear
  | damageEnemy (index : ℕ) (amount : ℚ) (isHeadshot : Bool) (now : ℤ)

/-- Apply one operation to the spawner state. -/
def SpawnerState.step (st : SpawnerState) : SpawnerOp → SpawnerState
  | .start => st.start
  | .stop => st.stop
  | .update dt now => st.update dt now
  | .spawnEnemy => st.spawnEnemy
  | .removeEnemy i => st.removeEnemy i
  | .cleanupDeadEnemies now => st.cleanupDeadEnemies now
  | .clear => st.clear
  | .damageEnemy i amount hs now => st.damageEnemy i amount hs now

/-- States reachable from the freshly constructed spawner by the
spawner's operations (including external enemy damage). -/
inductive SpawnerReachable : SpawnerState → Prop
  | init : SpawnerReachable initialSpawner
  | step (op : SpawnerOp) {st : SpawnerState} :
      SpawnerReachable st → SpawnerReachable (st.step op)

/-- Identity bookkeeping invariant: enemy ids in the active set are
pairwise distinct and below the identity counter. -/
def SpawnerState.goodIds (st : SpawnerState) : Prop :=
  (st.enemies.map Enemy.id).Nodup ∧
    ∀ e ∈ st.enemies, e.id < st.enemyIdCounter

/-- The C9 invariant: the dead-tracking set has no duplicates and only
references enemies in the active set. -/
def SpawnerState.deadInv (st : SpawnerState) : Prop :=
  st.deadEnemies.Nodup ∧
    ∀ id ∈ st.deadEnemies, id ∈ st.enemies.map Enemy.id

/-- Conjunction of the spawner's inductive invariants. -/
def SpawnerState.inv (st : SpawnerState) : Prop :=
  st.goodIds ∧ st.deadInv

/-- A reachable spawner state holding one enemy killed at time 0, with
the spawner then stopped: start, spawn, lethal hit, stop. -/
def stoppedWithCorpse : SpawnerState :=
  ((((initialSpawner.step .start).step .spawnEnemy).step
      (.damageEnemy 0 100 false 0)).step .stop)


/-! ## Collision queries (`src/systems/CollisionSystem.js`) and spawn
geometry -/

/-- A `THREE.Vector3`: exact real coordinates. -/
structure Vec3 where
  x : ℝ
  y : ℝ
  z : ℝ

/-- `new THREE.Vector3().subVectors(a, b)`. -/
noncomputable def Vec3.sub (a b : Vec3) : Vec3 :=
  ⟨a.x - b.x, a.y - b.y, a.z - b.z⟩

/-- `a.add(b)`. -/
noncomputable def Vec3.add (a b : Vec3) : Vec3 :=
  ⟨a.x + b.x, a.y + b.y, a.z + b.z⟩

/-- `a.multiplyScalar(t)`. -/
noncomputable def Vec3.multiplyScalar (a : Vec3) (t : ℝ) : Vec3 :=
  ⟨a.x * t, a.y * t, a.z * t⟩

/-- `a.dot(b)`. -/
noncomputable def Vec3.dot (a b : Vec3) : ℝ :=
  a.x * b.x + a.y * b.y + a.z * b.z

namespace MAP

/-- `MAP.BOUNDARY` from the constants module. -/
noncomputable def BOUNDARY : ℝ := 95

end MAP

namespace ZOMBIE

/-- `ZOMBIE.SPAWN_DISTANCE_MIN` from the constants module. -/
noncomputable def SPAWN_DISTANCE_MIN : ℝ := 60

/-- `ZOMBIE.SPAWN_DISTANCE_MAX` from the constants module. -/
noncomputable def SPAWN_DISTANCE_MAX : ℝ := 80

end ZOMBIE

namespace CollisionSystem

/-- `CollisionSystem.raycastSphere(origin, direction, sphereCenter,
radius)`: solves `|O + tD − C|² = r²`, rejects a negative discriminant,
takes the root `t = (−b − √disc)/(2a)` and rejects it when negative,
else returns the hit `{distance := t, point := O + tD}`. -/
noncomputable def raycastSphere (origin direction sphereCenter : Vec3)
    (radius : ℝ) : Option (ℝ × Vec3) :=
  let oc := origin.sub sphereCenter
  let a := direction.dot direction
  let b := 2 * oc.dot direction
  let c := oc.dot oc - radius * radius
  let discriminant := b * b - 4 * a * c
  if discriminant < 0 then
    none
  else
    let t := (-b - Real.sqrt discriminant) / (2 * a)
    if t < 0 then
      none
    else
      some (t, origin.add (direction.multiplyScalar t))

end CollisionSystem

/-- The squared-distance-minus-radius-squared quadratic of the ray and
sphere: its zeros are exactly the ray parameters whose points lie on
the sphere. -/
noncomputable def sphereQuad (origin direction sphereCenter : Vec3)
    (radius t : ℝ) : ℝ :=
  let p := origin.add (direction.multiplyScalar t)
  (p.sub sphereCenter).dot (p.sub sphereCenter) - radius * radius

/-- `SpawnerSystem.getSpawnPosition()`.  The two `Math.random()` draws
are the parameters: `angle = random · 2π` and
`distance = SPAWN_DISTANCE_MIN + random · (MAX − MIN)`; the position is
the player position offset by `(cos angle · distance, 0,
sin angle · distance)`, both horizontal axes clamped to the map
boundary. -/
noncomputable def SpawnerSystem.getSpawnPosition (playerPosition : Vec3)
    (angle distance : ℝ) : Vec3 :=
  let x := playerPosition.x + Real.cos angle * distance
  let z := playerPosition.z + Real.sin angle * distance
  let clampedX := max (-MAP.BOUNDARY) (min MAP.BOUNDARY x)
  let clampedZ := max (-MAP.BOUNDARY) (min MAP.BOUNDARY z)
  ⟨clampedX, 0, clampedZ⟩


/-- A reachable spawner state whose dead-tracking set is nonempty:
start, spawn, lethal hit at time 0, then a tick at time 1000 (before
the despawn delay), which records the corpse in the dead set. -/
def deadTrackedState : SpawnerState :=
  ((((initialSpawner.step .start).step .spawnEnemy).step
      (.damageEnemy 0 100 false 0)).step (.update 1 1000))


/-! ## Theorems -/

/-- C1: for `armor > 0` and `0 ≤ d ≤ armor`, `damage(d)` leaves `health`
unchanged and reduces `armor` by exactly `d`. -/
theorem damage_absorbed_by_armor (s : GameState) (d : ℚ)
    (ha : 0 < s.player.armor) (_hd0 : 0 ≤ d) (hda : d ≤ s.player.armor) :
    (s.damage d).1.player.health = s.player.health ∧
      (s.damage d).1.player.armor = s.player.armor - d := by
  have hmin : min s.player.armor d = d := min_eq_right hda
  have hrem : ¬ (d - d > 0) := by simp
  simp only [GameState.damage, hmin, if_pos ha, if_neg hrem]
  exact ⟨trivial, trivial⟩

/-- Witness for C1 at the spec's first example scenario:
armor 50, health 100, `damage(30)` keeps health 100 and leaves armor 20. -/
theorem damage_absorbed_by_armor_witness :
    0 < (withArmor 50).player.armor ∧ (0 : ℚ) ≤ 30 ∧
      (30 : ℚ) ≤ (withArmor 50).player.armor ∧
      (((withArmor 50).damage 30).1.player.health = (withArmor 50).player.health ∧
        ((withArmor 50).damage 30).1.player.armor = (withArmor 50).player.armor - 30) :=
  ⟨by norm_num [withArmor, initialState], by norm_num,
    by norm_num [withArmor, initialState],
    damage_absorbed_by_armor (withArmor 50) 30
      (by norm_num [withArmor, initialState]) (by norm_num)
      (by norm_num [withArmor, initialState])⟩

/-- C2: for `armor₀ > 0` and `d > armor₀`, `damage(d)` zeroes the armor,
publishes `ARMOR_BROKEN` exactly once during the call, and decreases
health by `d − armor₀` floored at 0. -/
theorem damage_breaks_armor (s : GameState) (d : ℚ)
    (ha : 0 < s.player.armor) (hda : s.player.armor < d) :
    (s.damage d).1.player.armor = 0 ∧
      (s.damage d).2.countP Event.isArmorBroken = 1 ∧
      (s.damage d).1.player.health =
        max 0 (s.player.health - (d - s.player.armor)) := by
  have hmin : min s.player.armor d = s.player.armor := min_eq_left hda.le
  have hbrk : s.player.armor - s.player.armor ≤ 0 := by simp
  have hrem : d - s.player.armor > 0 := by linarith
  simp only [GameState.damage, hmin, if_pos ha, if_pos hbrk, if_pos hrem]
  refine ⟨by ring_nf, ?_, trivial⟩
  by_cases hdied : max 0 (s.player.health - (d - s.player.armor)) ≤ 0 <;>
    simp [hdied, List.countP_append, List.countP_cons, Event.isArmorBroken]

/-- Witness for C2 at the spec's second example scenario:
armor 20, health 100, `damage(50)` gives armor 0, one `ARMOR_BROKEN`,
health `max 0 (100 − 30) = 70`. -/
theorem damage_breaks_armor_witness :
    0 < (withArmor 20).player.armor ∧ (withArmor 20).player.armor < 50 ∧
      (((withArmor 20).damage 50).1.player.armor = 0 ∧
        ((withArmor 20).damage 50).2.countP Event.isArmorBroken = 1 ∧
        ((withArmor 20).damage 50).1.player.health =
          max 0 ((withArmor 20).player.health - (50 - (withArmor 20).player.armor))) :=
  ⟨by norm_num [withArmor, initialState], by norm_num [withArmor, initialState],
    damage_breaks_armor (withArmor 20) 50
      (by norm_num [withArmor, initialState])
      (by norm_num [withArmor, initialState])⟩

/-- C3 counterexample: the claim says `PLAYER_DIED` is published exactly
once per descent of health to 0 and never again while health stays 0,
but a second `damage` call on a state whose health is already 0 (armor
0, here reached from the initial state by `damage(100)`) publishes
`PLAYER_DIED` again. -/
theorem playerDied_republished_at_zero_health :
    ((initialState.damage 100).1).player.health = 0 ∧
      (((initialState.damage 100).1).damage 5).2.countP Event.isPlayerDied = 1 := by
  constructor
  · norm_num [GameState.damage, initialState]
  · norm_num [GameState.damage, initialState, Event.isPlayerDied,
      List.countP_cons, List.countP_append]

/-- C3 amended: a `damage` call that brings health from a positive value
to 0 publishes `PLAYER_DIED` exactly once during that call; however the
event is not once-per-descent: every later `damage` call whose amount
exceeds the (non-negative) remaining armor while health is 0 publishes
`PLAYER_DIED` again, exactly once per such call. -/
theorem playerDied_per_damaging_call (s : GameState) (d : ℚ) :
    (0 < s.player.health → (s.damage d).1.player.health = 0 →
      (s.damage d).2.countP Event.isPlayerDied = 1) ∧
    (s.player.health = 0 → 0 ≤ s.player.armor → s.player.armor < d →
      (s.damage d).2.countP Event.isPlayerDied = 1) := by
  constructor
  · intro hpos hzero
    by_cases ha : s.player.armor > 0
    · by_cases hrem : d - min s.player.armor d > 0
      · have hdied : max 0 (s.player.health - (d - min s.player.armor d)) ≤ 0 := by
          have h2 := hzero
          simp only [GameState.damage, if_pos ha, if_pos hrem] at h2
          rw [h2]
        simp only [GameState.damage, if_pos ha, if_pos hrem, if_pos hdied]
        by_cases hbrk : s.player.armor - min s.player.armor d ≤ 0 <;>
          simp [hbrk, Event.isPlayerDied, List.countP_append, List.countP_cons]
      · exfalso
        have h2 := hzero
        simp only [GameState.damage, if_pos ha, if_neg hrem] at h2
        linarith
    · by_cases hrem : d > 0
      · have hdied : max 0 (s.player.health - d) ≤ 0 := by
          have h2 := hzero
          simp only [GameState.damage, if_neg ha, if_pos hrem] at h2
          rw [h2]
        simp only [GameState.damage, if_neg ha, if_pos hrem, if_pos hdied]
        simp [Event.isPlayerDied, List.countP_append, List.countP_cons]
      · exfalso
        have h2 := hzero
        simp only [GameState.damage, if_neg ha, if_neg hrem] at h2
        linarith
  · intro hzero hanneg hlt
    by_cases ha : s.player.armor > 0
    · have hrem : d - min s.player.armor d > 0 := by
        rw [min_eq_left hlt.le]; linarith
      have hdied : max 0 (s.player.health - (d - min s.player.armor d)) ≤ 0 := by
        rw [hzero, zero_sub, max_le_iff]
        exact ⟨le_refl 0, by linarith⟩
      simp only [GameState.damage, if_pos ha, if_pos hrem, if_pos hdied]
      by_cases hbrk : s.player.armor - min s.player.armor d ≤ 0 <;>
        simp [hbrk, Event.isPlayerDied, List.countP_append, List.countP_cons]
    · have hrem : d > 0 := by
        have : s.player.armor = 0 := le_antisymm (not_lt.mp ha) hanneg
        rw [this] at hlt; exact hlt
      have hdied : max 0 (s.player.health - d) ≤ 0 := by
        rw [hzero, zero_sub, max_le_iff]
        exact ⟨le_refl 0, by linarith⟩
      simp only [GameState.damage, if_neg ha, if_pos hrem, if_pos hdied]
      simp [Event.isPlayerDied, List.countP_append, List.countP_cons]

/-- Witness for the amended C3: from the initial state (health 100,
armor 0), `damage(100)` brings health to 0 and publishes `PLAYER_DIED`
exactly once. -/
theorem playerDied_per_damaging_call_witness :
    0 < initialState.player.health ∧
      (initialState.damage 100).1.player.health = 0 ∧
      (initialState.damage 100).2.countP Event.isPlayerDied = 1 :=
  ⟨by norm_num [initialState],
    by norm_num [GameState.damage, initialState],
    (playerDied_per_damaging_call initialState 100).1
      (by norm_num [initialState])
      (by norm_num [GameState.damage, initialState])⟩

/-- C10: for non-negative `amount`, `heal(amount)` sets health to
`min(maxHealth, health + amount)`, never exceeds `maxHealth`, never
decreases health when `health ≤ maxHealth`, and changes no other state
field. -/
theorem heal_clamps_to_maxHealth (s : GameState) (amount : ℚ)
    (hamt : 0 ≤ amount) :
    (s.heal amount).1.player.health =
        min s.player.maxHealth (s.player.health + amount) ∧
      (s.heal amount).1.player.health ≤ s.player.maxHealth ∧
      (s.player.health ≤ s.player.maxHealth →
        s.player.health ≤ (s.heal amount).1.player.health) ∧
      (s.heal amount).1.player.maxHealth = s.player.maxHealth ∧
      (s.heal amount).1.player.armor = s.player.armor ∧
      (s.heal amount).1.player.maxArmor = s.player.maxArmor ∧
      (s.heal amount).1.player.coins = s.player.coins ∧
      (s.heal amount).1.player.kills = s.player.kills ∧
      (s.heal amount).1.weapons = s.weapons ∧
      (s.heal amount).1.isPlaying = s.isPlaying ∧
      (s.heal amount).1.isPaused = s.isPaused ∧
      (s.heal amount).1.shopOpen = s.shopOpen ∧
      (s.heal amount).1.isFirstPerson = s.isFirstPerson := by
  refine ⟨rfl, min_le_left _ _, ?_, rfl, rfl, rfl, rfl, rfl, rfl, rfl, rfl, rfl, rfl⟩
  intro hle
  exact le_min hle (by linarith)

/-- Witness for C10: healing 25 after 50 damage from the initial state
(the repository's own heal test scenario) restores health to
`min 100 (50 + 25) = 75`. -/
theorem heal_clamps_to_maxHealth_witness :
    (0 : ℚ) ≤ 25 ∧
      ((initialState.damage 50).1.heal 25).1.player.health =
        min (initialState.damage 50).1.player.maxHealth
          ((initialState.damage 50).1.player.health + 25) :=
  ⟨by norm_num,
    (heal_clamps_to_maxHealth (initialState.damage 50).1 25 (by norm_num)).1⟩

/-- C4 counterexample: the claim says `WEAPON_EMPTY` is produced only by
the store's `useAmmo` path and never by the `Weapon` object itself, but
`fire()` on a weapon whose ammo is 0 (and whose cooldown has elapsed)
emits a weapon-sourced `WEAPON_EMPTY` directly, without calling
`useAmmo`. -/
theorem weaponEmpty_emitted_by_weapon_itself :
    emptyPistolState.weapons.ammo.get WeaponId.pistol = 0 ∧
      (Weapon.new WeaponId.pistol).fire emptyPistolState 1000 =
        (false, Weapon.new WeaponId.pistol, emptyPistolState,
          [(EventSource.weapon, Event.weaponEmpty WeaponId.pistol)]) := by
  constructor
  · rfl
  · rfl

/-- C4 amended: a `fire()` call gated only by the fire-rate cooldown
(ammo `> 0`, cooldown not yet elapsed) returns false and publishes no
event; a `fire()` call with ammo `≤ 0` returns false and the `Weapon`
object itself publishes `WEAPON_EMPTY` (never reaching the store's
`useAmmo` path, which publishes its own `WEAPON_EMPTY` only when it is
invoked at 0 ammo). -/
theorem fire_gating (w : Weapon) (gs : GameState) (now : ℤ) :
    (0 < gs.weapons.ammo.get w.type →
      now - w.lastFireTime < w.fireRate →
      w.fire gs now = (false, w, gs, [])) ∧
    (gs.weapons.ammo.get w.type ≤ 0 →
      w.fire gs now =
        (false, w, gs, [(EventSource.weapon, Event.weaponEmpty w.type)])) := by
  constructor
  · intro hammo hcool
    have hcf : w.canFire gs now = false := by
      simp [Weapon.canFire, hammo, not_le.mpr hcool]
    simp [Weapon.fire, hcf, not_le.mpr hammo]
  · intro hammo
    have hcf : w.canFire gs now = false := by
      simp [Weapon.canFire, not_lt.mpr hammo]
    simp [Weapon.fire, hcf, hammo]

/-- Witness for the amended C4: a fresh pistol (ammo 12) re-fired 100 ms
after a shot at time 900 is silently refused; the same pistol with an
emptied magazine publishes a weapon-sourced `WEAPON_EMPTY`. -/
theorem fire_gating_witness :
    (0 < initialState.weapons.ammo.get WeaponId.pistol ∧
      (1000 : ℤ) - 900 < 300 ∧
      Weapon.fire { type := .pistol, lastFireTime := 900, fireRate := 300 }
          initialState 1000 =
        (false, { type := .pistol, lastFireTime := 900, fireRate := 300 },
          initialState, [])) ∧
    (emptyPistolState.weapons.ammo.get WeaponId.pistol ≤ 0 ∧
      (Weapon.new WeaponId.pistol).fire emptyPistolState 1000 =
        (false, Weapon.new WeaponId.pistol, emptyPistolState,
          [(EventSource.weapon, Event.weaponEmpty WeaponId.pistol)])) :=
  ⟨⟨by norm_num [initialState, AmmoMap.get], by norm_num,
      (fire_gating { type := .pistol, lastFireTime := 900, fireRate := 300 }
          initialState 1000).1
        (by norm_num [initialState, AmmoMap.get]) (by norm_num)⟩,
    ⟨by norm_num [emptyPistolState, initialState, AmmoMap.get],
      (fire_gating (Weapon.new WeaponId.pistol) emptyPistolState 1000).2
        (by norm_num [emptyPistolState, initialState, Weapon.new, AmmoMap.get])⟩⟩

/-- C8: `takeDamage` on a dead entity returns "not killed" and leaves
the entity — health, death timestamp, life state, head — unchanged. -/
theorem takeDamage_on_dead_noop (e : Enemy) (amount : ℚ) (isHeadshot : Bool)
    (now : ℤ) (hdead : e.isDead = true) :
    e.takeDamage amount isHeadshot now = (false, e) := by
  simp [Enemy.takeDamage, hdead]

/-- Witness for C8: an enemy killed at time 3 takes 50 further damage at
time 10 and is returned unchanged with "not killed". -/
theorem takeDamage_on_dead_noop_witness :
    ((Enemy.new 0).die false 3).isDead = true ∧
      ((Enemy.new 0).die false 3).takeDamage 50 false 10 =
        (false, (Enemy.new 0).die false 3) :=
  ⟨rfl, takeDamage_on_dead_noop ((Enemy.new 0).die false 3) 50 false 10 rfl⟩

/-- C5 counterexample: the claim says an inactive spawner's `update`
still advances every already-spawned entity; but on a stopped spawner
holding one enemy dead since time 0, `update` at time 10000 returns the
state unchanged (the corpse, overdue for despawn, is still there),
whereas actually advancing and sweeping the entities — the spawn-free
tick the claim describes — would have removed it. -/
theorem inactive_update_skips_entity_updates :
    stoppedWithCorpse.isActive = false ∧
      stoppedWithCorpse.update 1 10000 = stoppedWithCorpse ∧
      stoppedWithCorpse.enemies.length = 1 ∧
      ((stoppedWithCorpse.updateEnemies 10000).cleanupDeadEnemies
          10000).enemies.length = 0 := by
  refine ⟨rfl, rfl, rfl, ?_⟩
  norm_num [stoppedWithCorpse, initialSpawner, SpawnerState.step,
    SpawnerState.start, SpawnerState.stop, SpawnerState.spawnEnemy,
    SpawnerState.damageEnemy, SpawnerState.updateEnemies,
    SpawnerState.updateLoop, SpawnerState.processEnemyAt,
    SpawnerState.removeEnemy, SpawnerState.cleanupDeadEnemies,
    SpawnerState.cleanupLoop, SpawnerState.cleanupStepAt,
    Enemy.update, Enemy.new, Enemy.takeDamage, Enemy.die,
    ZOMBIE.HEALTH, ZOMBIE.BODY_DESPAWN_TIME]

/-- C5 amended: when the active flag is false, `update(deltaTime)`
returns immediately: it spawns no entity and also does not advance or
sweep any already-spawned entity — the spawner state is unchanged. -/
theorem inactive_update_noop (st : SpawnerState) (deltaTime : ℚ) (now : ℤ)
    (h : st.isActive = false) :
    st.update deltaTime now = st := by
  simp [SpawnerState.update, h]

/-- Witness for the amended C5: the stopped spawner with a corpse is
returned unchanged by `update`. -/
theorem inactive_update_noop_witness :
    stoppedWithCorpse.isActive = false ∧
      stoppedWithCorpse.update 1 10000 = stoppedWithCorpse :=
  ⟨rfl, inactive_update_noop stoppedWithCorpse 1 10000 rfl⟩

/-- Mapping commutes with removal at an index. -/
theorem map_eraseIdx {α β : Type _} (f : α → β) :
    ∀ (l : List α) (i : ℕ), (l.eraseIdx i).map f = (l.map f).eraseIdx i := by
  intro l
  induction l with
  | nil => intro i; rfl
  | cons a t ih =>
    intro i
    cases i with
    | zero => rfl
    | succ i => simp [List.eraseIdx_cons_succ, ih i]

/-- An element different from the one at the removed index survives
`eraseIdx`. -/
theorem mem_eraseIdx_of_ne {α : Type _} {x v : α} :
    ∀ (l : List α) (i : ℕ), l.get? i = some v → x ∈ l → x ≠ v →
      x ∈ l.eraseIdx i := by
  intro l
  induction l with
  | nil => intro i h; simp at h
  | cons a t ih =>
    intro i h hx hne
    cases i with
    | zero =>
      rw [List.get?_cons_zero, Option.some_inj] at h
      rw [List.eraseIdx_cons_zero]
      rcases List.mem_cons.mp hx with rfl | hx
      · exact absurd h hne
      · exact hx
    | succ i =>
      rw [List.get?_cons_succ] at h
      rw [List.eraseIdx_cons_succ]
      rcases List.mem_cons.mp hx with rfl | hx
      · exact List.mem_cons_self _ _
      · exact List.mem_cons_of_mem _ (ih i h hx hne)

/-- Writing back the value already stored at an index is a no-op. -/
theorem set_get_self {α : Type _} {v : α} :
    ∀ (l : List α) (i : ℕ), l.get? i = some v → l.set i v = l := by
  intro l
  induction l with
  | nil => intro i h; simp at h
  | cons a t ih =>
    intro i h
    cases i with
    | zero =>
      rw [List.get?_cons_zero, Option.some_inj] at h
      rw [← h, List.set_cons_zero]
    | succ i =>
      rw [List.get?_cons_succ] at h
      rw [List.set_cons_succ, ih i h]

/-- `takeDamage` never changes the entity's identity. -/
theorem takeDamage_id (e : Enemy) (amount : ℚ) (isHeadshot : Bool) (now : ℤ) :
    ((e.takeDamage amount isHeadshot now).2).id = e.id := by
  simp only [Enemy.takeDamage, Enemy.die]
  split_ifs <;> rfl

/-- `removeEnemy` preserves the spawner invariant. -/
theorem inv_removeEnemy (st : SpawnerState) (i : ℕ) (h : st.inv) :
    (st.removeEnemy i).inv := by
  cases hget : st.enemies.get? i with
  | none => simp only [SpawnerState.removeEnemy, hget]; exact h
  | some e =>
    obtain ⟨⟨hnd, hlt⟩, dnd, dsub⟩ := h
    simp only [SpawnerState.removeEnemy, hget]
    refine ⟨⟨?_, ?_⟩, ?_, ?_⟩
    · rw [map_eraseIdx]
      exact (List.eraseIdx_sublist _ i).nodup hnd
    · intro e2 he2
      exact hlt e2 ((List.eraseIdx_sublist st.enemies i).subset he2)
    · exact List.Nodup.erase e.id dnd
    · intro id2 hid2
      obtain ⟨hne, hmem⟩ := (dnd.mem_erase_iff).mp hid2
      have hm : (st.enemies.map Enemy.id).get? i = some e.id := by
        rw [List.get?_map, hget]; rfl
      rw [map_eraseIdx]
      exact mem_eraseIdx_of_ne _ i hm (dsub id2 hmem) hne

/-- One `updateEnemies` iteration preserves the spawner invariant. -/
theorem inv_processEnemyAt (st : SpawnerState) (now : ℤ) (i : ℕ) (h : st.inv) :
    (st.processEnemyAt now i).inv := by
  cases hget : st.enemies.get? i with
  | none => simp only [SpawnerState.processEnemyAt, hget]; exact h
  | some e =>
    simp only [SpawnerState.processEnemyAt, hget]
    by_cases hupd : e.update now = true
    · rw [if_pos hupd]
      exact inv_removeEnemy st i h
    · rw [if_neg hupd]
      by_cases hguard : (e.isDead && !(st.deadEnemies.contains e.id)) = true
      · rw [if_pos hguard]
        obtain ⟨⟨hnd, hlt⟩, dnd, dsub⟩ := h
        have hnotmem : e.id ∉ st.deadEnemies := by
          have h2 := (Bool.and_eq_true _ _).mp hguard |>.2
          rw [Bool.not_eq_true'] at h2
          intro hc
          have h3 : st.deadEnemies.contains e.id = true := List.elem_iff.mpr hc
          rw [h3] at h2
          cases h2
        refine ⟨⟨hnd, hlt⟩, ?_, ?_⟩
        · rw [List.nodup_append]
          exact ⟨dnd, List.nodup_singleton _, List.disjoint_singleton.mpr hnotmem⟩
        · intro id2 hid2
          rcases List.mem_append.mp hid2 with hold | hnew
          · exact dsub id2 hold
          · rw [List.mem_singleton] at hnew
            subst hnew
            exact List.mem_map.mpr ⟨e, List.get?_mem hget, rfl⟩
      · rw [if_neg hguard]
        exact h

/-- The `updateEnemies` loop preserves the spawner invariant. -/
theorem inv_updateLoop (now : ℤ) :
    ∀ (fuel : ℕ) (st : SpawnerState), st.inv → (st.updateLoop now fuel).inv := by
  intro fuel
  induction fuel with
  | zero => intro st h; exact h
  | succ i ih => intro st h; exact ih _ (inv_processEnemyAt st now i h)

/-- `updateEnemies` preserves the spawner invariant. -/
theorem inv_updateEnemies (st : SpawnerState) (now : ℤ) (h : st.inv) :
    (st.updateEnemies now).inv :=
  inv_updateLoop now st.enemies.length st h

/-- One `cleanupDeadEnemies` iteration preserves the spawner invariant. -/
theorem inv_cleanupStepAt (st : SpawnerState) (now : ℤ) (i : ℕ) (h : st.inv) :
    (st.cleanupStepAt now i).inv := by
  cases hd : st.deadEnemies.get? i with
  | none => simp only [SpawnerState.cleanupStepAt, hd]; exact h
  | some id =>
    simp only [SpawnerState.cleanupStepAt, hd]
    cases hf : st.enemies.find? (fun e => e.id == id) with
    | none => simp only [hf]; exact h
    | some e =>
      simp only [hf]
      by_cases htime : ZOMBIE.BODY_DESPAWN_TIME < now - e.deathTime
      · rw [if_pos htime]
        cases hidx : st.enemies.findIdx? (fun e2 => e2.id == id) with
        | none => simp only [hidx]; exact h
        | some idx => simp only [hidx]; exact inv_removeEnemy st idx h
      · rw [if_neg htime]
        exact h

/-- The `cleanupDeadEnemies` loop preserves the spawner invariant. -/
theorem inv_cleanupLoop (now : ℤ) :
    ∀ (fuel : ℕ) (st : SpawnerState), st.inv → (st.cleanupLoop now fuel).inv := by
  intro fuel
  induction fuel with
  | zero => intro st h; exact h
  | succ i ih => intro st h; exact ih _ (inv_cleanupStepAt st now i h)

/-- `cleanupDeadEnemies` preserves the spawner invariant. -/
theorem inv_cleanupDeadEnemies (st : SpawnerState) (now : ℤ) (h : st.inv) :
    (st.cleanupDeadEnemies now).inv :=
  inv_cleanupLoop now st.deadEnemies.length st h

/-- `spawnEnemy` preserves the spawner invariant. -/
theorem inv_spawnEnemy (st : SpawnerState) (h : st.inv) :
    st.spawnEnemy.inv := by
  obtain ⟨⟨hnd, hlt⟩, dnd, dsub⟩ := h
  simp only [SpawnerState.spawnEnemy, SpawnerState.inv, SpawnerState.goodIds,
    SpawnerState.deadInv, Enemy.new, List.map_cons, List.map_nil]
  refine ⟨⟨?_, ?_⟩, dnd, ?_⟩
  · rw [List.map_append]
    simp only [List.map_cons, List.map_nil]
    rw [List.nodup_append]
    refine ⟨hnd, List.nodup_singleton _, ?_⟩
    rw [List.disjoint_singleton]
    intro hc
    obtain ⟨e, he, hid⟩ := List.mem_map.mp hc
    exact absurd hid (Nat.ne_of_lt (hlt e he))
  · intro e2 he2
    rcases List.mem_append.mp he2 with hold | hnew
    · exact Nat.lt_succ_of_lt (hlt e2 hold)
    · rw [List.mem_singleton] at hnew
      subst hnew
      exact Nat.lt_succ_self _
  · intro id2 hid2
    rw [List.map_append]
    exact List.mem_append_left _ (dsub id2 hid2)

/-- The hit-scan damage write preserves the spawner invariant. -/
theorem inv_damageEnemy (st : SpawnerState) (i : ℕ) (amount : ℚ)
    (isHeadshot : Bool) (now : ℤ) (h : st.inv) :
    (st.damageEnemy i amount isHeadshot now).inv := by
  cases hget : st.enemies.get? i with
  | none => simp only [SpawnerState.damageEnemy, hget]; exact h
  | some e =>
    obtain ⟨⟨hnd, hlt⟩, dnd, dsub⟩ := h
    simp only [SpawnerState.damageEnemy, hget]
    have hmap :
        (st.enemies.set i (e.takeDamage amount isHeadshot now).2).map Enemy.id =
          st.enemies.map Enemy.id := by
      rw [List.map_set, takeDamage_id]
      apply set_get_self
      rw [List.get?_map, hget]; rfl
    refine ⟨⟨?_, ?_⟩, dnd, ?_⟩
    · rw [hmap]; exact hnd
    · intro e2 he2
      rcases List.mem_or_eq_of_mem_set he2 with hold | hnew
      · exact hlt e2 hold
      · subst hnew
        rw [takeDamage_id]
        exact hlt e (List.get?_mem hget)
    · intro id2 hid2
      rw [hmap]
      exact dsub id2 hid2

/-- `update` preserves the spawner invariant. -/
theorem inv_update (st : SpawnerState) (dt : ℚ) (now : ℤ) (h : st.inv) :
    (st.update dt now).inv := by
  unfold SpawnerState.update
  by_cases hact : st.isActive = true
  · simp only [hact, Bool.not_true, Bool.false_eq_true, if_false]
    apply inv_cleanupDeadEnemies
    apply inv_updateEnemies
    by_cases hsp : ZOMBIE.SPAWN_INTERVAL ≤
        ({ st with spawnTimer := st.spawnTimer + dt * 1000 } : SpawnerState).spawnTimer
    · rw [if_pos hsp]
      exact inv_spawnEnemy _ h
    · rw [if_neg hsp]
      exact h
  · rw [Bool.not_eq_true] at hact
    simp only [hact, Bool.not_false, if_true]
    exact h

/-- `clear` establishes the spawner invariant outright. -/
theorem inv_clear (st : SpawnerState) : st.clear.inv :=
  ⟨⟨List.nodup_nil, by intro e he; cases he⟩,
    List.nodup_nil, by intro id hid; cases hid⟩

/-- Every spawner operation preserves the invariant. -/
theorem inv_step (st : SpawnerState) (op : SpawnerOp) (h : st.inv) :
    (st.step op).inv := by
  cases op with
  | start => exact h
  | stop => exact h
  | update dt now => exact inv_update st dt now h
  | spawnEnemy => exact inv_spawnEnemy st h
  | removeEnemy i => exact inv_removeEnemy st i h
  | cleanupDeadEnemies now => exact inv_cleanupDeadEnemies st now h
  | clear => exact inv_clear st
  | damageEnemy i amount hs now => exact inv_damageEnemy st i amount hs now h

/-- Every reachable spawner state satisfies the invariant. -/
theorem reachable_inv (st : SpawnerState) (h : SpawnerReachable st) : st.inv := by
  induction h with
  | init =>
    exact ⟨⟨List.nodup_nil, by intro e he; cases he⟩,
      List.nodup_nil, by intro id hid; cases hid⟩
  | step op _ ih => exact inv_step _ op ih

/-- C9: in every state reachable by the spawner's operations, the
dead-tracking set has no duplicate entries and is a subset of the
active entity set: an entity is recorded dead at most once — at the
tick its death is first observed — and `removeEnemy` deletes it from
both collections together. -/
theorem spawner_deadEnemies_nodup_subset (st : SpawnerState)
    (h : SpawnerReachable st) :
    st.deadEnemies.Nodup ∧
      ∀ id ∈ st.deadEnemies, id ∈ st.enemies.map Enemy.id :=
  (reachable_inv st h).2

/-- Witness for C9 at a reachable state whose dead set is nonempty:
start, spawn, lethal hit at time 0, tick at time 1000. -/
theorem spawner_deadEnemies_nodup_subset_witness :
    SpawnerReachable deadTrackedState ∧
      (deadTrackedState.deadEnemies.Nodup ∧
        ∀ id ∈ deadTrackedState.deadEnemies,
          id ∈ deadTrackedState.enemies.map Enemy.id) :=
  ⟨SpawnerReachable.step (.update 1 1000)
      (SpawnerReachable.step (.damageEnemy 0 100 false 0)
        (SpawnerReachable.step .spawnEnemy
          (SpawnerReachable.step .start SpawnerReachable.init))),
    spawner_deadEnemies_nodup_subset deadTrackedState
      (SpawnerReachable.step (.update 1 1000)
        (SpawnerReachable.step (.damageEnemy 0 100 false 0)
          (SpawnerReachable.step .spawnEnemy
            (SpawnerReachable.step .start SpawnerReachable.init))))⟩

/-- C7: every generated spawn position satisfies `|x| ≤ boundary` and
`|z| ≤ boundary` for the configured map boundary, for any player
position and any random draws in their documented ranges. -/
theorem spawn_position_within_boundary (playerPosition : Vec3)
    (angle distance : ℝ) (_h0 : 0 ≤ angle) (_h2pi : angle < 2 * Real.pi)
    (_hmin : ZOMBIE.SPAWN_DISTANCE_MIN ≤ distance)
    (_hmax : distance ≤ ZOMBIE.SPAWN_DISTANCE_MAX) :
    |(SpawnerSystem.getSpawnPosition playerPosition angle distance).x| ≤
        MAP.BOUNDARY ∧
      |(SpawnerSystem.getSpawnPosition playerPosition angle distance).z| ≤
        MAP.BOUNDARY := by
  have hb : (0 : ℝ) ≤ MAP.BOUNDARY := by norm_num [MAP.BOUNDARY]
  constructor <;>
  · simp only [SpawnerSystem.getSpawnPosition]
    rw [abs_le]
    exact ⟨le_max_left _ _, max_le (by linarith) (min_le_left _ _)⟩

/-- Witness for C7 at player position 0, angle 0, distance 60. -/
theorem spawn_position_within_boundary_witness :
    (0 : ℝ) ≤ 0 ∧ (0 : ℝ) < 2 * Real.pi ∧
      ZOMBIE.SPAWN_DISTANCE_MIN ≤ (60 : ℝ) ∧
      (60 : ℝ) ≤ ZOMBIE.SPAWN_DISTANCE_MAX ∧
      (|(SpawnerSystem.getSpawnPosition ⟨0, 0, 0⟩ 0 60).x| ≤ MAP.BOUNDARY ∧
        |(SpawnerSystem.getSpawnPosition ⟨0, 0, 0⟩ 0 60).z| ≤ MAP.BOUNDARY) :=
  ⟨le_refl 0, by positivity, by norm_num [ZOMBIE.SPAWN_DISTANCE_MIN],
    by norm_num [ZOMBIE.SPAWN_DISTANCE_MAX],
    spawn_position_within_boundary ⟨0, 0, 0⟩ 0 60 (le_refl 0) (by positivity)
      (by norm_num [ZOMBIE.SPAWN_DISTANCE_MIN])
      (by norm_num [ZOMBIE.SPAWN_DISTANCE_MAX])⟩

/-- The smaller root `(−b − s)/2` of a monic quadratic, where
`s = √(b² − 4c)`, is below every root. -/
theorem quadratic_root_le {b c s z : ℝ} (hs : 0 ≤ s)
    (hsq : s ^ 2 = b ^ 2 - 4 * c) (hz : z ^ 2 + b * z + c = 0) :
    (-b - s) / 2 ≤ z := by
  have key : (2 * z + b + s) * (2 * z + b - s) = 0 := by
    linear_combination 4 * hz - hsq
  rcases mul_eq_zero.mp key with h1 | h2
  · linarith
  · linarith

/-- `(−b − s)/2` with `s = √(b² − 4c)` is a root of the monic
quadratic. -/
theorem quadratic_smaller_root_is_root {b c s : ℝ}
    (hsq : s ^ 2 = b ^ 2 - 4 * c) :
    ((-b - s) / 2) ^ 2 + b * ((-b - s) / 2) + c = 0 := by
  linear_combination hsq / 4

/-- With a unit direction, `sphereQuad` is the monic quadratic
`t² + bt + c` with `b = 2·(O−C)·D` and `c = |O−C|² − r²`. -/
theorem sphereQuad_eq (O D C : Vec3) (r : ℝ) (hD : D.dot D = 1) (s : ℝ) :
    sphereQuad O D C r s =
      s ^ 2 + (2 * (O.sub C).dot D) * s +
        ((O.sub C).dot (O.sub C) - r * r) := by
  have hD2 : D.x * D.x + D.y * D.y + D.z * D.z = 1 := hD
  simp only [sphereQuad, Vec3.add, Vec3.sub, Vec3.multiplyScalar, Vec3.dot]
  linear_combination (s ^ 2) * hD2

/-- Any hit returned by `raycastSphere` (unit direction) is at a
non-negative parameter, lies at `O + tD` on the sphere, and is the
least line parameter meeting the sphere. -/
theorem raycastSphere_some (O D C : Vec3) (r : ℝ) (hD : D.dot D = 1)
    (t : ℝ) (p : Vec3)
    (hsome : CollisionSystem.raycastSphere O D C r = some (t, p)) :
    0 ≤ t ∧ p = O.add (D.multiplyScalar t) ∧ sphereQuad O D C r t = 0 ∧
      ∀ s, sphereQuad O D C r s = 0 → t ≤ s := by
  simp only [CollisionSystem.raycastSphere, hD, mul_one] at hsome
  split at hsome
  · simp at hsome
  · split at hsome
    · simp at hsome
    · rename_i hdisc ht
      rw [Option.some_inj, Prod.mk.injEq] at hsome
      obtain ⟨h1, h2⟩ := hsome
      subst h1
      subst h2
      have hsq2 :
          Real.sqrt (2 * (O.sub C).dot D * (2 * (O.sub C).dot D) -
                4 * ((O.sub C).dot (O.sub C) - r * r)) ^ 2 =
            (2 * (O.sub C).dot D) ^ 2 -
              4 * ((O.sub C).dot (O.sub C) - r * r) := by
        rw [Real.sq_sqrt (not_lt.mp hdisc)]
        ring
      refine ⟨not_lt.mp ht, rfl, ?_, ?_⟩
      · rw [sphereQuad_eq O D C r hD]
        exact quadratic_smaller_root_is_root hsq2
      · intro s hroot
        rw [sphereQuad_eq O D C r hD] at hroot
        exact quadratic_root_le (Real.sqrt_nonneg _) hsq2 hroot

/-- C6: with a normalized direction, `raycastSphere` returns null
whenever the sphere's center projects behind the origin along the ray
(`(C−O)·D < 0`) with the origin outside or on the sphere; it returns
null whenever no point of the ray's line lies on the sphere (negative
discriminant); any returned hit `{distance := t, point}` has `t ≥ 0`,
`point = O + tD` on the sphere, with `t` the smaller (least) solution
of the quadratic — so a negative smaller root can never be returned;
and conversely, whenever the least solution `t` of the quadratic is
non-negative, the hit `{distance := t, point := O + tD}` is actually
returned. -/
theorem raycastSphere_spec (O D C : Vec3) (r : ℝ) (hD : D.dot D = 1) :
    ((C.sub O).dot D < 0 → r ^ 2 ≤ (C.sub O).dot (C.sub O) →
        CollisionSystem.raycastSphere O D C r = none) ∧
      ((∀ s : ℝ, sphereQuad O D C r s ≠ 0) →
        CollisionSystem.raycastSphere O D C r = none) ∧
      (∀ t p, CollisionSystem.raycastSphere O D C r = some (t, p) →
        0 ≤ t ∧ p = O.add (D.multiplyScalar t) ∧ sphereQuad O D C r t = 0 ∧
          ∀ s, sphereQuad O D C r s = 0 → t ≤ s) ∧
      ∀ t, 0 ≤ t → sphereQuad O D C r t = 0 →
        (∀ s, sphereQuad O D C r s = 0 → t ≤ s) →
        CollisionSystem.raycastSphere O D C r =
          some (t, O.add (D.multiplyScalar t)) := by
  have hsym : (C.sub O).dot D = -((O.sub C).dot D) := by
    simp only [Vec3.sub, Vec3.dot]
    ring
  have hsym2 : (C.sub O).dot (C.sub O) = (O.sub C).dot (O.sub C) := by
    simp only [Vec3.sub, Vec3.dot]
    ring
  refine ⟨?_, ?_, fun t p h => raycastSphere_some O D C r hD t p h, ?_⟩
  · intro hproj houtside
    by_contra hne
    obtain ⟨⟨t, p⟩, hsome⟩ :
        ∃ x, CollisionSystem.raycastSphere O D C r = some x := by
      cases hrc : CollisionSystem.raycastSphere O D C r with
      | none => exact absurd hrc hne
      | some x => exact ⟨x, rfl⟩
    obtain ⟨ht0, _, hroot, hmin⟩ := raycastSphere_some O D C r hD t p hsome
    rw [sphereQuad_eq O D C r hD] at hroot
    have hocD : 0 < (O.sub C).dot D := by
      rw [hsym] at hproj
      linarith
    have hc : 0 ≤ (O.sub C).dot (O.sub C) - r * r := by
      rw [hsym2] at houtside
      nlinarith [houtside]
    have hle : t ≤ 0 := by nlinarith [hroot, hocD, hc, ht0]
    have hteq : t = 0 := le_antisymm hle ht0
    have hc0 : (O.sub C).dot (O.sub C) - r * r = 0 := by
      rw [hteq] at hroot
      linarith [hroot]
    have hminus : sphereQuad O D C r (-(2 * (O.sub C).dot D)) = 0 := by
      rw [sphereQuad_eq O D C r hD]
      linear_combination hc0
    have hcontra := hmin _ hminus
    rw [hteq] at hcontra
    linarith
  · intro hnoroot
    by_contra hne
    obtain ⟨⟨t, p⟩, hsome⟩ :
        ∃ x, CollisionSystem.raycastSphere O D C r = some x := by
      cases hrc : CollisionSystem.raycastSphere O D C r with
      | none => exact absurd hrc hne
      | some x => exact ⟨x, rfl⟩
    obtain ⟨_, _, hroot, _⟩ := raycastSphere_some O D C r hD t p hsome
    exact hnoroot t hroot
  · intro t ht0 hroott hmin
    rw [sphereQuad_eq O D C r hD] at hroott
    have hdisc : ¬(2 * (O.sub C).dot D * (2 * (O.sub C).dot D) -
        4 * ((O.sub C).dot (O.sub C) - r * r) < 0) := by
      intro hneg
      nlinarith [hroott, sq_nonneg (t + (O.sub C).dot D)]
    have hsq2 :
        Real.sqrt (2 * (O.sub C).dot D * (2 * (O.sub C).dot D) -
              4 * ((O.sub C).dot (O.sub C) - r * r)) ^ 2 =
          (2 * (O.sub C).dot D) ^ 2 -
            4 * ((O.sub C).dot (O.sub C) - r * r) := by
      rw [Real.sq_sqrt (not_lt.mp hdisc)]
      ring
    have hle1 : t ≤ (-(2 * (O.sub C).dot D) -
        Real.sqrt (2 * (O.sub C).dot D * (2 * (O.sub C).dot D) -
          4 * ((O.sub C).dot (O.sub C) - r * r))) / 2 := by
      apply hmin
      rw [sphereQuad_eq O D C r hD]
      exact quadratic_smaller_root_is_root hsq2
    have hle2 : (-(2 * (O.sub C).dot D) -
        Real.sqrt (2 * (O.sub C).dot D * (2 * (O.sub C).dot D) -
          4 * ((O.sub C).dot (O.sub C) - r * r))) / 2 ≤ t :=
      quadratic_root_le (Real.sqrt_nonneg _) hsq2 hroott
    have hteq : (-(2 * (O.sub C).dot D) -
        Real.sqrt (2 * (O.sub C).dot D * (2 * (O.sub C).dot D) -
          4 * ((O.sub C).dot (O.sub C) - r * r))) / 2 = t :=
      le_antisymm hle2 hle1
    simp only [CollisionSystem.raycastSphere, hD, mul_one]
    rw [if_neg hdisc, hteq, if_neg (not_lt.mpr ht0)]

/-- Witness for C6 at the spec's ray example: origin `(0,0,−5)`,
direction `(0,0,1)`, unit sphere at the origin.  The quadratic's least
root 4 is non-negative, and the returned hit is
`{distance := 4, point := O + 4·D}` — the spec's distance-4 hit. -/
theorem raycastSphere_spec_witness :
    Vec3.dot ⟨0, 0, 1⟩ ⟨0, 0, 1⟩ = 1 ∧ (0 : ℝ) ≤ 4 ∧
      sphereQuad ⟨0, 0, -5⟩ ⟨0, 0, 1⟩ ⟨0, 0, 0⟩ 1 4 = 0 ∧
      (∀ s, sphereQuad ⟨0, 0, -5⟩ ⟨0, 0, 1⟩ ⟨0, 0, 0⟩ 1 s = 0 → (4 : ℝ) ≤ s) ∧
      CollisionSystem.raycastSphere ⟨0, 0, -5⟩ ⟨0, 0, 1⟩ ⟨0, 0, 0⟩ 1 =
        some (4, Vec3.add ⟨0, 0, -5⟩ (Vec3.multiplyScalar ⟨0, 0, 1⟩ 4)) :=
  ⟨by norm_num [Vec3.dot], by norm_num,
    by norm_num [sphereQuad, Vec3.add, Vec3.sub, Vec3.multiplyScalar, Vec3.dot],
    by
      intro s hs
      simp only [sphereQuad, Vec3.add, Vec3.sub, Vec3.multiplyScalar,
        Vec3.dot] at hs
      have key : (s - 4) * (s - 6) = 0 := by linear_combination hs
      rcases mul_eq_zero.mp key with h | h
      · linarith
      · linarith,
    (raycastSphere_spec ⟨0, 0, -5⟩ ⟨0, 0, 1⟩ ⟨0, 0, 0⟩ 1
        (by norm_num [Vec3.dot])).2.2.2 4 (by norm_num)
      (by norm_num [sphereQuad, Vec3.add, Vec3.sub, Vec3.multiplyScalar,
        Vec3.dot])
      (by
        intro s hs
        simp only [sphereQuad, Vec3.add, Vec3.sub, Vec3.multiplyScalar,
          Vec3.dot] at hs
        have key : (s - 4) * (s - 6) = 0 := by linear_combination hs
        rcases mul_eq_zero.mp key with h | h
        · linarith
        · linarith)⟩
